import Mathlib

/-!
Shallow embedding of `src/generar_template.py` (payroll-roster consolidation
pipeline).  Cell values are `Option String`: `none` renders pandas `NaN`,
`some s` a text cell.  A `Record` is one row as an association list from
column name to cell; a `DF` is a pandas DataFrame: its column set plus its
rows in order.  Python string primitives (`strip`, `split`, `upper`, `lower`,
`title`) are modelled character-exactly for ASCII text plus the accented
vowels the script manipulates.
-/

/-- Python whitespace for `str.strip` / `str.split`: space, tab, newline,
carriage return, vertical tab, form feed. -/
def esBlanco (c : Char) : Bool :=
  c = ' ' || c = '\t' || c = '\n' || c = '\r' || c = Char.ofNat 11 || c = Char.ofNat 12

/-- Python `str.strip()`: drop whitespace from both ends. -/
def pyStrip (s : String) : String :=
  String.mk (((s.data.dropWhile esBlanco).reverse.dropWhile esBlanco).reverse)

/-- Python `str.upper()` (ASCII range; the script only uppercases key and
job-title tokens). -/
def pyUpper (s : String) : String :=
  String.mk (s.data.map Char.toUpper)

/-- Python `str.lower()` on the characters the script meets: ASCII plus the
accented vowels that header normalization later strips. -/
def charMinuscula (c : Char) : Char :=
  if c = 'Á' then 'á' else if c = 'É' then 'é' else if c = 'Í' then 'í'
  else if c = 'Ó' then 'ó' else if c = 'Ú' then 'ú' else c.toLower

def pyLower (s : String) : String :=
  String.mk (s.data.map charMinuscula)

/-- Python `str.title()`: uppercase every cased character that follows a
non-cased one, lowercase the rest (ASCII letters). -/
def pyTitleAux : Bool → List Char → List Char
  | _, [] => []
  | prevAlfa, c :: cs =>
    if c.isAlpha then
      (if prevAlfa then c.toLower else c.toUpper) :: pyTitleAux true cs
    else
      c :: pyTitleAux false cs

def pyTitle (s : String) : String :=
  String.mk (pyTitleAux false s.data)

/-- Python `str.split()` with no argument: split on runs of whitespace,
never producing empty tokens. -/
def pySplitAux : List Char → List Char → List String
  | [], acum => if acum.isEmpty then [] else [String.mk acum.reverse]
  | c :: cs, acum =>
    if esBlanco c then
      if acum.isEmpty then pySplitAux cs [] else String.mk acum.reverse :: pySplitAux cs []
    else
      pySplitAux cs (c :: acum)

def pySplit (s : String) : List String :=
  pySplitAux s.data []

/-- `" ".join(l)`. -/
def unirEspacios (l : List String) : String :=
  String.intercalate " " l

/-- One DataFrame row: column name ↦ cell (`none` = `NaN`). -/
abbrev Record := List (String × Option String)

/-- A pandas DataFrame: its columns and its rows in order. -/
structure DF where
  cols : List String
  rows : List Record
deriving DecidableEq

/-- Reading cell `c` of a row: a column missing from the row reads as `NaN`,
exactly as `reindex` materializes it. -/
def getCol (r : Record) (c : String) : Option String :=
  (r.lookup c).getD none

/-- Column assignment on one row (`df[c] = v`). -/
def setCol (r : Record) (c : String) (v : Option String) : Record :=
  (r.filter fun p => !(p.1 == c)) ++ [(c, v)]

/-- `separar_nombres_y_apellidos` (src lines 6–33): heuristic split of a full
name into (first names, surnames).  `pd.isna` is true exactly on `none`. -/
def separar_nombres_y_apellidos (texto : Option String) : String × String :=
  match texto with
  | none => ("", "")
  | some t =>
    if pyStrip t = "" then ("", "")
    else
      let partes := pySplit (pyStrip t)
      match partes with
      | [p] => (p, "")
      | [p, q] => (p, q)
      | [p, q, r] => (p, q ++ " " ++ r)
      | _ => (unirEspacios (partes.take 2), unirEspacios (partes.drop 2))

example : separar_nombres_y_apellidos (some "Juan Pablo Perez Soto") = ("Juan Pablo", "Perez Soto") := by
  decide

example : separar_nombres_y_apellidos (some "  Juan   Perez ") = ("Juan", "Perez") := by
  decide

/-- `columnas_template` (src lines 64–69): the strict 16-column target
schema, in emission order. -/
def columnas_template : List String :=
  ["nombre", "apellido", "rut", "correo", "direccion", "telefono",
   "fecha de ingreso", "fecha de nacimiento", "cargo", "tipo de usuario",
   "centro de trabajo", "subempresa", "empresacontratista",
   "rut supervisor", "correo de bienvenida", "área"]

/-- `alias_columnas` (src lines 72–85): canonical field ↦ accepted client
spellings, in declaration order. -/
def alias_columnas : List (String × List String) :=
  [("nombre_completo", ["nombre completo", "nombres y apellidos", "nombre trabajador", "trabajador", "colaborador", "empleado"]),
   ("nombre", ["nombres", "primer nombre", "nombre", "nombre(s)"]),
   ("apellido", ["apellidos", "apellidos trabajador", "apellido", "apellido(s)"]),
   ("correo", ["email", "correo electronico", "e-mail", "mail"]),
   ("rut", ["rut trabajador", "rut empleado", "identificacion", "run", "r.u.t", "id empleado", "id_empleado"]),
   ("telefono", ["celular", "telefono", "fono", "tel"]),
   ("fecha de ingreso", ["fecha ingreso", "ingreso", "fecha contratacion", "fecha de inicio de contrato", "fecha inicio contrato", "inicio de contrato", "inicio contrato"]),
   ("fecha de nacimiento", ["fecha nacimiento", "nacimiento", "fecha de nac", "cumpleaños"]),
   ("área", ["area", "departamento", "seccion"]),
   ("centro de trabajo", ["centro de trabajo", "sucursal / rbd", "sucursal rbd", "sucursal", "lugar de trabajo"]),
   ("codigo_rbd_temp", ["rbd informado por vero", "rbd", "codigo rbd"]),
   ("nombre_rbd_temp", ["nombre rbd", "establecimiento", "colegio"])]

/-- Python `dict` assignment `m[k] = v`: overwrite the binding of an existing
key in place, otherwise append the new binding. -/
def asignarDict (m : List (String × String)) (k v : String) : List (String × String) :=
  if m.any (fun p => p.1 == k) then
    m.map (fun p => if p.1 == k then (k, v) else p)
  else
    m ++ [(k, v)]

/-- `mapeo_traduccion` construction (src lines 88–91): iterate the alias table
in declaration order, assigning `m[alias] = canonical`. -/
def construirMapeo (tabla : List (String × List String)) : List (String × String) :=
  tabla.foldl (fun m p => p.2.foldl (fun m' a => asignarDict m' a p.1) m) []

def mapeo_traduccion : List (String × String) :=
  construirMapeo alias_columnas

/-- Header normalization (src lines 114–117): cast to str is the identity
here, then strip, lowercase, and replace the five accented vowels. -/
def quitarTilde (c : Char) : Char :=
  if c = 'á' then 'a' else if c = 'é' then 'e' else if c = 'í' then 'i'
  else if c = 'ó' then 'o' else if c = 'ú' then 'u' else c

def normalizarEncabezado (s : String) : String :=
  String.mk ((pyLower (pyStrip s)).data.map quitarTilde)

/-- `df.rename(columns=mapeo_traduccion)` on one normalized header: a mapped
header becomes its canonical name, an unknown one passes through. -/
def traducirEncabezado (tabla : List (String × List String)) (h : String) : String :=
  match (construirMapeo tabla).lookup (normalizarEncabezado h) with
  | some oficial => oficial
  | none => normalizarEncabezado h

/-- Rejection tags of the key audit (Fase 2). -/
inductive Motivo where
  | valido
  | sinRut
  | duplicado
deriving DecidableEq

/-- Primary-key standardization (src lines 134–135):
`astype(str).str.strip().str.upper()` then
`replace(['NAN','NONE','NULL',''], np.nan)`.  `astype(str)` prints a `NaN`
cell as `"nan"`. -/
def normRut (v : Option String) : Option String :=
  let u := pyUpper (pyStrip (match v with | none => "nan" | some s => s))
  if u = "NAN" || u = "NONE" || u = "NULL" || u = "" then none else some u

/-- The key audit over the consolidated rows (src lines 134–165), rendered as
one ordered scan: write the normalized key back into the row, tag rows whose
key is absent (`isna` mask, line 138), and among keyed rows tag as duplicate
exactly those whose key occurred on an earlier keyed row
(`duplicated(subset=['rut'], keep='first')`, line 145); the rest are the
valid rows kept at line 165. -/
def clasificarRut : List String → List Record → List (Record × Motivo)
  | _, [] => []
  | vistos, r :: rs =>
    match normRut (getCol r "rut") with
    | none => (setCol r "rut" none, Motivo.sinRut) :: clasificarRut vistos rs
    | some k =>
      if k ∈ vistos then
        (setCol r "rut" (some k), Motivo.duplicado) :: clasificarRut vistos rs
      else
        (setCol r "rut" (some k), Motivo.valido) :: clasificarRut (k :: vistos) rs

/-- Fase 2 (src lines 132–165): when a `rut` column exists, split the frame
into the validated rows and the excluded rows with their tags; otherwise the
frame passes through untouched and nothing is excluded. -/
def auditarClaves (df : DF) : DF × List (Record × Motivo) :=
  if "rut" ∈ df.cols then
    let etiquetadas := clasificarRut [] df.rows
    (⟨df.cols, (etiquetadas.filter fun p => p.2 = Motivo.valido).map Prod.fst⟩,
     etiquetadas.filter fun p => ¬ p.2 = Motivo.valido)
  else
    (df, [])

/-- `df[c] = serie`: add the column when new, overwrite per-row values. -/
def agregarColumnas (cols : List String) (nuevas : List String) : List String :=
  cols ++ nuevas.filter (fun c => ¬ c ∈ cols)

/-- Name split applied frame-wide (src lines 172–174 / 179–181): both derived
columns come from one precomputed `separados` series over the source column. -/
def aplicarSeparacion (df : DF) (fuente : String) : DF :=
  ⟨agregarColumnas df.cols ["nombre", "apellido"],
   df.rows.map fun r =>
     let sep := separar_nombres_y_apellidos (getCol r fuente)
     setCol (setCol r "nombre" (some sep.1)) "apellido" (some sep.2)⟩

/-- `df['apellido'].replace('', np.nan).dropna().empty` (src line 178): every
surname cell is `NaN` or the empty string. -/
def apellidoSinDatos (df : DF) : Bool :=
  df.rows.all fun r => getCol r "apellido" = none || getCol r "apellido" = some ""

/-- Fase 3.1 (src lines 170–181): split an explicit full-name column, else
split the first-name column when no usable surname column exists. -/
def fase31 (df : DF) : DF :=
  if "nombre_completo" ∈ df.cols then
    aplicarSeparacion df "nombre_completo"
  else if "nombre" ∈ df.cols then
    if ¬ "apellido" ∈ df.cols || apellidoSinDatos df then
      aplicarSeparacion df "nombre"
    else df
  else df

/-- Job-title standardization on one cell (src lines 185–187):
`fillna('')`, strip, upper, then `replace(['NAN','NONE','NULL'], '')`. -/
def normCargo (v : Option String) : String :=
  let u := pyUpper (pyStrip (match v with | none => "" | some s => s))
  if u = "NAN" || u = "NONE" || u = "NULL" then "" else u

/-- Fase 3.2 (src lines 184–187): uppercase the `cargo` column when present. -/
def fase32 (df : DF) : DF :=
  if "cargo" ∈ df.cols then
    ⟨df.cols, df.rows.map fun r => setCol r "cargo" (some (normCargo (getCol r "cargo")))⟩
  else df

/-- Site-code cleanup (src line 191): `fillna('')`, strip, then exact-value
`replace('Nan', '')`. -/
def codigoAseado (v : Option String) : String :=
  let s := pyStrip (match v with | none => "" | some t => t)
  if s = "Nan" then "" else s

/-- Site-name cleanup (src line 192): `fillna('')`, strip, title-case, then
exact-value `replace('Nan', '')`. -/
def nombreAseado (v : Option String) : String :=
  let s := pyTitle (pyStrip (match v with | none => "" | some t => t))
  if s = "Nan" then "" else s

/-- Conditional concatenation (src lines 195–198): `np.where` emits the
separator only when both sides are non-empty. -/
def combinarCentro (c n : String) : String :=
  if c ≠ "" ∧ n ≠ "" then c ++ " - " ++ n else c ++ n

/-- The composite work-site value of one row. -/
def centroCompuesto (r : Record) : String :=
  combinarCentro (codigoAseado (getCol r "codigo_rbd_temp"))
    (nombreAseado (getCol r "nombre_rbd_temp"))

/-- Fase 3.3 (src lines 190–204): when both RBD columns exist, build the
composite; an existing `centro de trabajo` column keeps its non-empty values
(`replace('', np.nan).fillna(serie)`), a missing one is created outright. -/
def fase33 (df : DF) : DF :=
  if "codigo_rbd_temp" ∈ df.cols ∧ "nombre_rbd_temp" ∈ df.cols then
    if "centro de trabajo" ∈ df.cols then
      ⟨df.cols, df.rows.map fun r =>
        match getCol r "centro de trabajo" with
        | none => setCol r "centro de trabajo" (some (centroCompuesto r))
        | some v =>
          if v = "" then setCol r "centro de trabajo" (some (centroCompuesto r)) else r⟩
    else
      ⟨agregarColumnas df.cols ["centro de trabajo"],
       df.rows.map fun r => setCol r "centro de trabajo" (some (centroCompuesto r))⟩
  else df

/-- Fase 4 on one row (src lines 212–216): `reindex(columns=columnas_template)`
keeps exactly the 16 template columns in order, materializing absent ones as
`NaN`; `fillna('')` then renders every `NaN` as the empty string. -/
def proyectar (r : Record) : List (String × String) :=
  columnas_template.map fun c => (c, (getCol r c).getD "")

/-- Fase 4 over the validated frame (src lines 209–216): one projected row
per row, in order. -/
def fase4 (df : DF) : List (List (String × String)) :=
  df.rows.map proyectar

/-- The pipeline from the consolidated frame to the projected rows
(src lines 132–216). -/
def procesar (df : DF) : List (List (String × String)) :=
  fase4 (fase33 (fase32 (fase31 (auditarClaves df).1)))

/-! ### Basic lemmas about the row model -/

theorem lookup_filter_ne_append (r : Record) (c : String) (v : Option String) :
    (((r.filter fun p => !(p.1 == c)) ++ [(c, v)]).lookup c) = some v := by
  induction r with
  | nil => simp [List.lookup]
  | cons p t ih =>
    by_cases hp : p.1 = c
    · simp [List.filter_cons, hp, ih]
    · simp only [List.filter_cons]
      have hb : (!(p.1 == c)) = true := by simp [hp]
      rw [hb]
      simp only [List.cons_append, List.lookup]
      have hc : (c == p.1) = false := by simp [Ne.symm hp]
      rw [hc]
      exact ih

theorem getCol_setCol (r : Record) (c : String) (v : Option String) :
    getCol (setCol r c v) c = v := by
  simp [getCol, setCol, lookup_filter_ne_append]

theorem pySplit_cadena_vacia : pySplit "" = [] := rfl

theorem cadena_append_vacia (s : String) : s ++ "" = s := by
  cases s with
  | mk l =>
    show String.mk (l ++ []) = String.mk l
    rw [List.append_nil]

/-! ### Lemmas about the key audit -/

/-- The set of keys already seen after scanning `rows` starting from
`vistos`. -/
def clavesTras (vistos : List String) (rows : List Record) : List String :=
  rows.foldl (fun acc r =>
    match normRut (getCol r "rut") with
    | none => acc
    | some k => if k ∈ acc then acc else k :: acc) vistos

/-- The normalized keys of `rows`, in order, keyless rows skipped. -/
def clavesDe (rows : List Record) : List String :=
  rows.filterMap fun r => normRut (getCol r "rut")

theorem clavesTras_cons (vistos : List String) (r : Record) (rs : List Record) :
    clavesTras vistos (r :: rs) =
      clavesTras
        (match normRut (getCol r "rut") with
         | none => vistos
         | some k => if k ∈ vistos then vistos else k :: vistos) rs := rfl

theorem mem_clavesTras (vistos : List String) (rows : List Record) (k : String) :
    k ∈ clavesTras vistos rows ↔ k ∈ vistos ∨ k ∈ clavesDe rows := by
  induction rows generalizing vistos with
  | nil => simp [clavesTras, clavesDe]
  | cons r rs ih =>
    rw [clavesTras_cons]
    cases h : normRut (getCol r "rut") with
    | none => simp [h, ih, clavesDe, List.filterMap_cons, h]
    | some k₀ =>
      by_cases hk : k₀ ∈ vistos
      · simp only [h, hk, if_pos, ih, clavesDe, List.filterMap_cons, h]
        constructor
        · rintro (hv | hr)
          · exact Or.inl hv
          · exact Or.inr (List.mem_cons_of_mem _ hr)
        · rintro (hv | hr)
          · exact Or.inl hv
          · rcases List.mem_cons.mp hr with rfl | hr
            · exact Or.inl hk
            · exact Or.inr hr
      · simp only [h, hk, if_neg, ih, clavesDe, List.filterMap_cons, not_false_iff]
        simp only [List.mem_cons]
        tauto

theorem clasificarRut_length (vistos : List String) (rows : List Record) :
    (clasificarRut vistos rows).length = rows.length := by
  induction rows generalizing vistos with
  | nil => rfl
  | cons r rs ih =>
    cases h : normRut (getCol r "rut") with
    | none => simp [clasificarRut, h, ih]
    | some k =>
      by_cases hk : k ∈ vistos
      · simp [clasificarRut, h, hk, ih]
      · simp [clasificarRut, h, hk, ih]

theorem clasificarRut_append (vistos : List String) (l₁ l₂ : List Record) :
    clasificarRut vistos (l₁ ++ l₂) =
      clasificarRut vistos l₁ ++ clasificarRut (clavesTras vistos l₁) l₂ := by
  induction l₁ generalizing vistos with
  | nil => simp [clasificarRut, clavesTras]
  | cons r rs ih =>
    rw [List.cons_append, clavesTras_cons]
    cases h : normRut (getCol r "rut") with
    | none => simp [clasificarRut, h, ih]
    | some k =>
      by_cases hk : k ∈ vistos
      · simp [clasificarRut, h, hk, ih]
      · simp [clasificarRut, h, hk, ih]

/-- The tag handed to the row at index `i`, as a function of its own
normalized key and the keys of the rows before it. -/
theorem clasificarRut_getElem (vistos : List String) (rows : List Record) (i : Nat)
    (r : Record) (h : rows[i]? = some r) :
    (clasificarRut vistos rows)[i]? = some
      (setCol r "rut" (normRut (getCol r "rut")),
       match normRut (getCol r "rut") with
       | none => Motivo.sinRut
       | some k =>
         if k ∈ vistos ∨ k ∈ clavesDe (rows.take i) then Motivo.duplicado
         else Motivo.valido) := by
  have hi : i < rows.length := by
    rw [List.getElem?_eq_some] at h
    exact h.1
  have hdrop : rows.drop i = r :: rows.drop (i + 1) := by
    have := List.drop_eq_getElem_cons hi
    rw [List.getElem?_eq_some] at h
    rw [this, h.2]
  have hsplit : rows = rows.take i ++ (r :: rows.drop (i + 1)) := by
    conv_lhs => rw [← List.take_append_drop i rows]
    rw [hdrop]
  have hlen : (clasificarRut vistos (rows.take i)).length = i := by
    rw [clasificarRut_length, List.length_take]
    omega
  conv_lhs => rw [hsplit]
  rw [clasificarRut_append, List.getElem?_append_right (by omega), hlen, Nat.sub_self]
  cases hr : normRut (getCol r "rut") with
  | none => simp [clasificarRut, hr]
  | some k =>
    by_cases hk : k ∈ clavesTras vistos (rows.take i)
    · rw [mem_clavesTras] at hk
      simp [clasificarRut, hr, mem_clavesTras, hk]
    · rw [mem_clavesTras] at hk
      simp [clasificarRut, hr, mem_clavesTras, hk]

/-- The normalized keys of the rows the audit keeps as valid. -/
def clavesValidas (vistos : List String) (rows : List Record) : List String :=
  ((clasificarRut vistos rows).filter fun p => p.2 = Motivo.valido).filterMap
    fun p => getCol p.1 "rut"

theorem clavesValidas_nodup (vistos : List String) (rows : List Record) :
    (clavesValidas vistos rows).Nodup ∧ ∀ k ∈ clavesValidas vistos rows, ¬ k ∈ vistos := by
  induction rows generalizing vistos with
  | nil => simp [clavesValidas, clasificarRut]
  | cons r rs ih =>
    cases h : normRut (getCol r "rut") with
    | none =>
      have he : clavesValidas vistos (r :: rs) = clavesValidas vistos rs := by
        simp [clavesValidas, clasificarRut, h]
      rw [he]
      exact ih vistos
    | some k =>
      by_cases hk : k ∈ vistos
      · have he : clavesValidas vistos (r :: rs) = clavesValidas vistos rs := by
          simp [clavesValidas, clasificarRut, h, hk]
        rw [he]
        exact ih vistos
      · have he : clavesValidas vistos (r :: rs) = k :: clavesValidas (k :: vistos) rs := by
          simp [clavesValidas, clasificarRut, h, hk, List.filter_cons,
                List.filterMap_cons, getCol_setCol]
        rw [he]
        refine ⟨List.nodup_cons.mpr ⟨fun hmem => ?_, (ih (k :: vistos)).1⟩, ?_⟩
        · exact (ih (k :: vistos)).2 k hmem (List.mem_cons_self k vistos)
        · intro k' hk' hv
          rcases List.mem_cons.mp hk' with rfl | hk'
          · exact hk hv
          · exact (ih (k :: vistos)).2 k' hk' (List.mem_cons_of_mem _ hv)

theorem cuenta_tres_motivos (l : List (Record × Motivo)) :
    l.countP (fun p => p.2 = Motivo.valido) + l.countP (fun p => p.2 = Motivo.sinRut)
      + l.countP (fun p => p.2 = Motivo.duplicado) = l.length := by
  induction l with
  | nil => simp
  | cons p t ih =>
    rcases p with ⟨r, m⟩
    cases m <;> simp [List.countP_cons] <;> omega

/-- The audit declares a key absent exactly on `NaN` cells and on cells whose
trimmed, uppercased text is one of the null-like tokens or empty. -/
theorem normRut_eq_none_iff (v : Option String) :
    normRut v = none ↔
      (v = none ∨
        pyUpper (pyStrip (v.getD "")) ∈ (["NAN", "NONE", "NULL", ""] : List String)) := by
  cases v with
  | none => decide
  | some s =>
    simp only [normRut, Option.getD_some]
    by_cases h1 : pyUpper (pyStrip s) = "NAN"
    · simp [h1]
    · by_cases h2 : pyUpper (pyStrip s) = "NONE"
      · simp [h2]
      · by_cases h3 : pyUpper (pyStrip s) = "NULL"
        · simp [h3]
        · by_cases h4 : pyUpper (pyStrip s) = ""
          · simp [h4]
          · simp [h1, h2, h3, h4]

/-! ### Concrete rows used by the claims -/

def filaA1 : Record := [("rut", some "a"), ("origen_hoja", some "archivo1.xlsx -> Hoja1")]

def filaB : Record := [("rut", some "B"), ("origen_hoja", some "archivo1.xlsx -> Hoja1")]

def filaA2 : Record := [("rut", some " A "), ("origen_hoja", some "archivo2.xlsx -> Hoja1")]

/-- Keys `["A", "B", "A"]` spread over two files, in consolidation order. -/
def dfEjemploC2 : DF := ⟨["rut", "origen_hoja"], [filaA1, filaB, filaA2]⟩

def filaNan : Record := [("rut", some " nan ")]

def dfEjemploC1 : DF := ⟨["rut"], [filaNan]⟩

/-! ### The claims -/

/-- Claim C1: when the consolidated frame has a `rut` column, the audit places
each record in exactly one of {valid, missing-key, duplicate-key} — the valid
and excluded outputs are complementary filters of one tagged scan whose three
tag counts sum to the row count — and a row is tagged missing-key exactly when
its `rut` cell is null or its trimmed, uppercased text is `"NAN"`, `"NONE"`,
`"NULL"`, or empty. -/
theorem C1_auditor_tres_conjuntos (df : DF) (h : "rut" ∈ df.cols) :
    ((auditarClaves df).1.rows
        = ((clasificarRut [] df.rows).filter fun p => p.2 = Motivo.valido).map Prod.fst
      ∧ (auditarClaves df).2 = (clasificarRut [] df.rows).filter fun p => ¬ p.2 = Motivo.valido)
    ∧ ((clasificarRut [] df.rows).countP (fun p => p.2 = Motivo.valido)
        + (clasificarRut [] df.rows).countP (fun p => p.2 = Motivo.sinRut)
        + (clasificarRut [] df.rows).countP (fun p => p.2 = Motivo.duplicado)
        = df.rows.length)
    ∧ ∀ (i : Nat) (r : Record), df.rows[i]? = some r →
        ∃ p : Record × Motivo, (clasificarRut [] df.rows)[i]? = some p ∧
          (p.2 = Motivo.sinRut ↔
            (getCol r "rut" = none ∨
              pyUpper (pyStrip ((getCol r "rut").getD ""))
                ∈ (["NAN", "NONE", "NULL", ""] : List String))) := by
  refine ⟨⟨by simp [auditarClaves, h], by simp [auditarClaves, h]⟩, ?_, ?_⟩
  · have hc := cuenta_tres_motivos (clasificarRut [] df.rows)
    rw [clasificarRut_length] at hc
    exact hc
  · intro i r hr
    refine ⟨_, clasificarRut_getElem [] df.rows i r hr, ?_⟩
    rw [← normRut_eq_none_iff]
    cases hn : normRut (getCol r "rut") with
    | none => simp [hn]
    | some k =>
      by_cases hk : k ∈ clavesDe (df.rows.take i)
      · simp [hn, hk]
      · simp [hn, hk]

theorem C1_auditor_tres_conjuntos_witness :
    ∃ p : Record × Motivo, (clasificarRut [] dfEjemploC1.rows)[0]? = some p ∧
      (p.2 = Motivo.sinRut ↔
        (getCol filaNan "rut" = none ∨
          pyUpper (pyStrip ((getCol filaNan "rut").getD ""))
            ∈ (["NAN", "NONE", "NULL", ""] : List String))) :=
  (C1_auditor_tres_conjuntos dfEjemploC1 (by decide)).2.2 0 filaNan (by decide)

/-- Claim C2: among rows sharing a normalized key, exactly the first in
consolidation order stays valid and every later one is tagged duplicate-key,
so the normalized key is unique across the valid set; on keys
`["A", "B", "A"]` over two files the surviving `"A"` row is the one read
first and the later one is excluded as a duplicate. -/
theorem C2_primero_sobrevive (rows : List Record) :
    (clavesValidas [] rows).Nodup
    ∧ (∀ (i : Nat) (r : Record) (k : String), rows[i]? = some r → normRut (getCol r "rut") = some k →
        ((∃ p : Record × Motivo, (clasificarRut [] rows)[i]? = some p ∧ p.2 = Motivo.valido) ↔
          ¬ k ∈ clavesDe (rows.take i))
        ∧ ((∃ p : Record × Motivo, (clasificarRut [] rows)[i]? = some p ∧ p.2 = Motivo.duplicado) ↔
          k ∈ clavesDe (rows.take i)))
    ∧ (auditarClaves dfEjemploC2).1.rows.map (fun r => getCol r "origen_hoja")
        = [some "archivo1.xlsx -> Hoja1", some "archivo1.xlsx -> Hoja1"]
    ∧ (auditarClaves dfEjemploC2).1.rows.map (fun r => getCol r "rut")
        = [some "A", some "B"]
    ∧ (auditarClaves dfEjemploC2).2.map (fun p => (getCol p.1 "origen_hoja", p.2))
        = [(some "archivo2.xlsx -> Hoja1", Motivo.duplicado)] := by
  refine ⟨(clavesValidas_nodup [] rows).1, ?_, by decide, by decide, by decide⟩
  intro i r k hr hk
  have hg := clasificarRut_getElem [] rows i r hr
  rw [hk] at hg
  by_cases hc : k ∈ clavesDe (rows.take i)
  · constructor
    · simp [hg, hc]
    · simp [hg, hc]
  · constructor
    · simp [hg, hc]
    · simp [hg, hc]

theorem C2_primero_sobrevive_witness :
    ∃ p : Record × Motivo, (clasificarRut [] [filaA1, filaB, filaA2])[2]? = some p ∧ p.2 = Motivo.duplicado :=
  (((C2_primero_sobrevive [filaA1, filaB, filaA2]).2.1 2 filaA2 "A"
      (by decide) (by decide)).2).mpr (by decide)

/-- Claim C3: the name split returns `("","")` on null or whitespace-only
input, `(token, "")` on one token, the evident pairs on two and three tokens,
and for four or more tokens the first two tokens joined by a space against
the rest joined by spaces. -/
theorem C3_separacion_nombres (t : String) :
    separar_nombres_y_apellidos none = ("", "")
    ∧ (pyStrip t = "" → separar_nombres_y_apellidos (some t) = ("", ""))
    ∧ (∀ a : String, pySplit (pyStrip t) = [a] →
        separar_nombres_y_apellidos (some t) = (a, ""))
    ∧ (∀ a b : String, pySplit (pyStrip t) = [a, b] →
        separar_nombres_y_apellidos (some t) = (a, b))
    ∧ (∀ a b c : String, pySplit (pyStrip t) = [a, b, c] →
        separar_nombres_y_apellidos (some t) = (a, b ++ " " ++ c))
    ∧ (4 ≤ (pySplit (pyStrip t)).length →
        separar_nombres_y_apellidos (some t)
          = (unirEspacios ((pySplit (pyStrip t)).take 2),
             unirEspacios ((pySplit (pyStrip t)).drop 2)))
    ∧ separar_nombres_y_apellidos (some "Juan") = ("Juan", "")
    ∧ separar_nombres_y_apellidos (some "Juan Perez") = ("Juan", "Perez")
    ∧ separar_nombres_y_apellidos (some "Juan Pablo Perez") = ("Juan", "Pablo Perez")
    ∧ separar_nombres_y_apellidos (some "Juan Pablo Perez Soto") = ("Juan Pablo", "Perez Soto") := by
  have hnovacia : ∀ a : String, ∀ l : List String, pySplit (pyStrip t) = a :: l → ¬ pyStrip t = "" := by
    intro a l hp he
    rw [he, pySplit_cadena_vacia] at hp
    cases hp
  refine ⟨rfl, ?_, ?_, ?_, ?_, ?_, by decide, by decide, by decide, by decide⟩
  · intro h
    simp [separar_nombres_y_apellidos, h]
  · intro a h
    simp [separar_nombres_y_apellidos, hnovacia _ _ h, h]
  · intro a b h
    simp [separar_nombres_y_apellidos, hnovacia _ _ h, h]
  · intro a b c h
    simp [separar_nombres_y_apellidos, hnovacia _ _ h, h]
  · intro h4
    cases hp : pySplit (pyStrip t) with
    | nil => rw [hp] at h4; simp at h4
    | cons a l1 =>
      cases l1 with
      | nil => rw [hp] at h4; simp at h4
      | cons b l2 =>
        cases l2 with
        | nil => rw [hp] at h4; simp at h4
        | cons c l3 =>
          cases l3 with
          | nil => rw [hp] at h4; simp at h4
          | cons d rest =>
            simp [separar_nombres_y_apellidos, hnovacia _ _ hp, hp]

theorem C3_separacion_nombres_witness :
    separar_nombres_y_apellidos (some "   ") = ("", "") :=
  (C3_separacion_nombres "   ").2.1 (by decide)

/-- Claim C4: the work-site composite trims both parts, title-cases the name,
treats the literal `"Nan"` as empty, and emits `"<code> - <name>"` when both
parts are non-empty, the single non-empty part alone otherwise, and the empty
string when both are empty. -/
theorem C4_centro_trabajo_compuesto (code name : Option String) :
    (¬ codigoAseado code = "" → ¬ nombreAseado name = "" →
      combinarCentro (codigoAseado code) (nombreAseado name)
        = codigoAseado code ++ " - " ++ nombreAseado name)
    ∧ (nombreAseado name = "" →
      combinarCentro (codigoAseado code) (nombreAseado name) = codigoAseado code)
    ∧ (codigoAseado code = "" →
      combinarCentro (codigoAseado code) (nombreAseado name) = nombreAseado name)
    ∧ nombreAseado (some " nan ") = ""
    ∧ codigoAseado (some "Nan") = ""
    ∧ centroCompuesto [("codigo_rbd_temp", some "123"), ("nombre_rbd_temp", some "colegio abc")]
        = "123 - Colegio Abc"
    ∧ centroCompuesto [("codigo_rbd_temp", some "123"), ("nombre_rbd_temp", some "")] = "123"
    ∧ centroCompuesto [("codigo_rbd_temp", some ""), ("nombre_rbd_temp", some "")] = "" := by
  refine ⟨?_, ?_, ?_, by decide, by decide, by decide, by decide, by decide⟩
  · intro h1 h2
    simp [combinarCentro, h1, h2]
  · intro h
    simp [combinarCentro, h, cadena_append_vacia]
  · intro h
    simp [combinarCentro, h]

theorem C4_centro_trabajo_compuesto_witness :
    combinarCentro (codigoAseado (some " 123 ")) (nombreAseado (some "")) = codigoAseado (some " 123 ") :=
  (C4_centro_trabajo_compuesto (some " 123 ") (some "")).2.1 (by decide)

theorem lookup_mapa_clave (l : List String) (g : String → String) (c : String) (hc : c ∈ l) :
    (l.map fun x => (x, g x)).lookup c = some (g c) := by
  induction l with
  | nil => cases hc
  | cons a t ih =>
    by_cases hac : c = a
    · subst hac
      simp [List.lookup]
    · have hb : (c == a) = false := by simp [hac]
      rcases List.mem_cons.mp hc with rfl | hc'
      · simp at hb
      · simp only [List.map_cons, List.lookup, hb]
        exact ih hc'

/-- Claim C5: projection emits exactly the 16 template fields in their fixed
order — no non-template field survives — and fills every template field the
record lacks with the empty string. -/
theorem C5_proyeccion_plantilla (r : Record) :
    (proyectar r).map Prod.fst = columnas_template
    ∧ (proyectar r).length = 16
    ∧ (∀ c v, (c, v) ∈ proyectar r → c ∈ columnas_template)
    ∧ (∀ c, c ∈ columnas_template → getCol r c = none →
        (proyectar r).lookup c = some "") := by
  refine ⟨?_, ?_, ?_, ?_⟩
  · rfl
  · simp [proyectar, columnas_template]
  · intro c v hm
    rcases List.mem_map.mp hm with ⟨x, hx, he⟩
    rcases he
    exact hx
  · intro c hc hnone
    rw [proyectar, lookup_mapa_clave _ _ c hc, hnone]
    rfl

theorem C5_proyeccion_plantilla_witness :
    (proyectar [("foo", some "bar")]).lookup "cargo" = some "" :=
  (C5_proyeccion_plantilla [("foo", some "bar")]).2.2.2 "cargo" (by decide) (by decide)

/-- A consolidated frame whose single record carries only provenance: it has
no `rut` column, so the record is valid, and its projection is empty in all
16 template fields. -/
def dfSoloOrigen : DF :=
  ⟨["origen_hoja"], [[("origen_hoja", some "clientes.xlsx -> Hoja1")]]⟩

/-- Claim C6 counterexample: the pipeline keeps a valid record whose
projection is empty in all 16 template fields — the projected output does
contain an entirely empty row, so such rows are not dropped. -/
theorem C6_contraejemplo :
    ¬ ∀ fila ∈ procesar dfSoloOrigen, ¬ ∀ p ∈ fila, p.2 = "" := by
  decide

/-- Claim C6 amended: the projector keeps one output row per valid record,
in order, with no filtering — a row empty in all 16 template fields is
retained, not dropped. -/
theorem C6_filas_vacias_conservadas (df : DF) :
    (fase4 df).length = df.rows.length
    ∧ ∀ (i : Nat) (r : Record), df.rows[i]? = some r → (fase4 df)[i]? = some (proyectar r) := by
  refine ⟨by simp [fase4], ?_⟩
  intro i r h
  simp [fase4, List.getElem?_map, h]

theorem C6_filas_vacias_conservadas_witness :
    (fase4 dfSoloOrigen)[0]? = some (proyectar [("origen_hoja", some "clientes.xlsx -> Hoja1")]) :=
  (C6_filas_vacias_conservadas dfSoloOrigen).2 0
    [("origen_hoja", some "clientes.xlsx -> Hoja1")] (by decide)

/-- Claim C7: when both RBD columns and a `centro de trabajo` column exist,
a row whose `centro de trabajo` cell is non-empty passes through the
composite step untouched, and the composite is written exactly into rows
whose cell is null or empty. -/
theorem C7_centro_existente_prevalece (df : DF) (hc : "codigo_rbd_temp" ∈ df.cols)
    (hn : "nombre_rbd_temp" ∈ df.cols) (hcen : "centro de trabajo" ∈ df.cols)
    (i : Nat) (r : Record) (hr : df.rows[i]? = some r) :
    (∀ v : String, getCol r "centro de trabajo" = some v → ¬ v = "" →
      (fase33 df).rows[i]? = some r)
    ∧ ((getCol r "centro de trabajo" = none ∨ getCol r "centro de trabajo" = some "") →
      ∃ r' : Record, (fase33 df).rows[i]? = some r' ∧
        getCol r' "centro de trabajo" = some (centroCompuesto r)) := by
  constructor
  · intro v hv hne
    simp [fase33, hc, hn, hcen, List.getElem?_map, hr, hv, hne]
  · rintro (hv | hv)
    · exact ⟨setCol r "centro de trabajo" (some (centroCompuesto r)),
        by simp [fase33, hc, hn, hcen, List.getElem?_map, hr, hv],
        getCol_setCol r "centro de trabajo" (some (centroCompuesto r))⟩
    · exact ⟨setCol r "centro de trabajo" (some (centroCompuesto r)),
        by simp [fase33, hc, hn, hcen, List.getElem?_map, hr, hv],
        getCol_setCol r "centro de trabajo" (some (centroCompuesto r))⟩

def filaSede : Record :=
  [("codigo_rbd_temp", some "123"), ("nombre_rbd_temp", some "colegio abc"),
   ("centro de trabajo", some "Sede Central")]

def dfSede : DF :=
  ⟨["codigo_rbd_temp", "nombre_rbd_temp", "centro de trabajo"], [filaSede]⟩

theorem C7_centro_existente_prevalece_witness :
    (fase33 dfSede).rows[0]? = some filaSede :=
  (C7_centro_existente_prevalece dfSede (by decide) (by decide) (by decide) 0 filaSede
    (by decide)).1 "Sede Central" (by decide) (by decide)

/-- Claim C9: with no `rut` column in the consolidated frame, the audit is
skipped entirely: the frame passes through unchanged and the excluded set is
empty, so every record proceeds as valid. -/
theorem C9_sin_columna_rut (df : DF) (h : ¬ "rut" ∈ df.cols) :
    auditarClaves df = (df, []) := by
  simp [auditarClaves, h]

def dfSinRut : DF :=
  ⟨["telefono", "origen_hoja"],
   [[("telefono", some "5551234"), ("origen_hoja", some "a.xlsx -> H1")]]⟩

theorem C9_sin_columna_rut_witness : auditarClaves dfSinRut = (dfSinRut, []) :=
  C9_sin_columna_rut dfSinRut (by decide)

/-- Claim C10: when a `cargo` column exists, every job-title cell is trimmed
and uppercased, with null cells and the resulting literal tokens `"NAN"`,
`"NONE"`, `"NULL"` replaced by the empty string. -/
theorem C10_cargo_mayusculas (df : DF) (h : "cargo" ∈ df.cols) (i : Nat) (r : Record)
    (hr : df.rows[i]? = some r) :
    ∃ r' : Record, (fase32 df).rows[i]? = some r' ∧
      getCol r' "cargo"
        = some (if pyUpper (pyStrip ((getCol r "cargo").getD "")) = "NAN"
                  ∨ pyUpper (pyStrip ((getCol r "cargo").getD "")) = "NONE"
                  ∨ pyUpper (pyStrip ((getCol r "cargo").getD "")) = "NULL"
                then "" else pyUpper (pyStrip ((getCol r "cargo").getD ""))) := by
  refine ⟨setCol r "cargo" (some (normCargo (getCol r "cargo"))),
    by simp [fase32, h, List.getElem?_map, hr], ?_⟩
  rw [getCol_setCol]
  congr 1
  cases hv : getCol r "cargo" with
  | none => decide
  | some s =>
    simp only [normCargo, Option.getD_some]
    by_cases h1 : pyUpper (pyStrip s) = "NAN"
    · simp [h1]
    · by_cases h2 : pyUpper (pyStrip s) = "NONE"
      · simp [h2]
      · by_cases h3 : pyUpper (pyStrip s) = "NULL"
        · simp [h3]
        · simp [h1, h2, h3]

def dfCargo : DF := ⟨["cargo"], [[("cargo", some " profesor jefe ")]]⟩

theorem C10_cargo_mayusculas_witness :
    ∃ r' : Record, (fase32 dfCargo).rows[0]? = some r' ∧
      getCol r' "cargo"
        = some (if pyUpper (pyStrip ((getCol [("cargo", some " profesor jefe ")] "cargo").getD "")) = "NAN"
                  ∨ pyUpper (pyStrip ((getCol [("cargo", some " profesor jefe ")] "cargo").getD "")) = "NONE"
                  ∨ pyUpper (pyStrip ((getCol [("cargo", some " profesor jefe ")] "cargo").getD "")) = "NULL"
                then "" else pyUpper (pyStrip ((getCol [("cargo", some " profesor jefe ")] "cargo").getD ""))) :=
  C10_cargo_mayusculas dfCargo (by decide) 0 [("cargo", some " profesor jefe ")] (by decide)

/-! ### Lemmas about the alias dictionary -/

theorem lookup_cons_ne {β : Type} (pk : String) (pv : β) (t : List (String × β))
    (a : String) (h : ¬ a = pk) : (((pk, pv) :: t).lookup a) = t.lookup a := by
  have hb : (a == pk) = false := by simp [h]
  simp [List.lookup_cons, hb]

theorem lookup_cons_self {β : Type} (pk : String) (pv : β) (t : List (String × β)) :
    (((pk, pv) :: t).lookup pk) = some pv := by
  simp [List.lookup_cons]

theorem lookup_sobrescribir (m : List (String × String)) (k v a : String) (hne : ¬ a = k) :
    ((m.map fun p => if p.1 == k then (k, v) else p).lookup a) = m.lookup a := by
  induction m with
  | nil => rfl
  | cons p t ih =>
    rcases p with ⟨pk, pv⟩
    rw [List.map_cons]
    by_cases hp : pk = k
    · have hhead : (if (((pk, pv) : String × String).1 == k) = true then ((k, v) : String × String)
          else (pk, pv)) = (k, v) := by simp [hp]
      rw [hhead, lookup_cons_ne k v _ a hne, hp, lookup_cons_ne k pv t a hne]
      exact ih
    · have hhead : (if (((pk, pv) : String × String).1 == k) = true then ((k, v) : String × String)
          else (pk, pv)) = (pk, pv) := by simp [hp]
      rw [hhead]
      by_cases hap : a = pk
      · subst hap
        rw [lookup_cons_self, lookup_cons_self]
      · rw [lookup_cons_ne pk pv _ a hap, lookup_cons_ne pk pv t a hap]
        exact ih

theorem lookup_sobrescribir_self (m : List (String × String)) (k v : String)
    (hmem : m.any (fun p => p.1 == k)) :
    ((m.map fun p => if p.1 == k then (k, v) else p).lookup k) = some v := by
  induction m with
  | nil => cases hmem
  | cons p t ih =>
    rcases p with ⟨pk, pv⟩
    rw [List.map_cons]
    by_cases hp : pk = k
    · have hhead : (if (((pk, pv) : String × String).1 == k) = true then ((k, v) : String × String)
          else (pk, pv)) = (k, v) := by simp [hp]
      rw [hhead, lookup_cons_self]
    · have hhead : (if (((pk, pv) : String × String).1 == k) = true then ((k, v) : String × String)
          else (pk, pv)) = (pk, pv) := by simp [hp]
      have hmem2 : t.any (fun p => p.1 == k) := by
        have hc : ((pk, pv).1 == k) = false := by simp [hp]
        simpa [List.any_cons, hc] using hmem
      rw [hhead, lookup_cons_ne pk pv _ k (fun he => hp he.symm)]
      exact ih hmem2

theorem lookup_sin_clave (m : List (String × String)) (k : String)
    (h : ¬ m.any (fun p => p.1 == k)) : m.lookup k = none := by
  induction m with
  | nil => rfl
  | cons p t ih =>
    rcases p with ⟨pk, pv⟩
    simp only [List.any_cons, Bool.or_eq_true, not_or] at h
    have hp : ¬ pk = k := by
      intro he
      exact h.1 (by simp [he])
    rw [lookup_cons_ne pk pv t k (fun he => hp he.symm)]
    exact ih (by simpa using h.2)

theorem lookup_asignarDict (m : List (String × String)) (k v a : String) :
    (asignarDict m k v).lookup a = if a = k then some v else m.lookup a := by
  by_cases hm : m.any (fun p => p.1 == k)
  · have hd : asignarDict m k v = m.map fun p => if p.1 == k then (k, v) else p := by
      simp [asignarDict, hm]
    rw [hd]
    by_cases ha : a = k
    · subst ha
      rw [lookup_sobrescribir_self m a v hm]
      simp
    · rw [lookup_sobrescribir m k v a ha]
      simp [ha]
  · have hd : asignarDict m k v = m ++ [(k, v)] := by
      simp [asignarDict, hm]
    rw [hd, List.lookup_append]
    by_cases ha : a = k
    · subst ha
      rw [lookup_sin_clave m a hm]
      simp [List.lookup_cons]
    · have hb : (a == k) = false := by simp [ha]
      simp only [List.lookup_cons, hb]
      simp [List.lookup, ha]

theorem lookup_foldl_aliases (as : List String) (m : List (String × String)) (c a : String) :
    ((as.foldl (fun acc al => asignarDict acc al c) m).lookup a)
      = if a ∈ as then some c else m.lookup a := by
  induction as generalizing m with
  | nil => simp
  | cons a₀ t ih =>
    rw [List.foldl_cons, ih]
    by_cases hat : a ∈ t
    · simp [hat]
    · by_cases ha0 : a = a₀
      · simp [hat, ha0, lookup_asignarDict]
      · simp [hat, ha0, lookup_asignarDict]

/-- The built translation dictionary resolves an alias to the canonical field
of the LAST alias-table entry declaring it: later `dict` assignments
overwrite earlier ones. -/
theorem lookup_construirMapeo (tabla : List (String × List String)) (a : String) :
    (construirMapeo tabla).lookup a
      = ((tabla.filter fun p => a ∈ p.2).getLast?).map Prod.fst := by
  induction tabla using List.reverseRecOn with
  | nil => rfl
  | append_singleton t p ih =>
    rcases p with ⟨c, as⟩
    have hfold : construirMapeo (t ++ [(c, as)])
        = as.foldl (fun acc al => asignarDict acc al c) (construirMapeo t) := by
      simp [construirMapeo, List.foldl_append]
    rw [hfold, lookup_foldl_aliases, List.filter_append]
    by_cases ha : a ∈ as
    · have hfil : List.filter (fun p => a ∈ p.2) [((c, as) : String × List String)] = [(c, as)] := by
        simp [ha]
      rw [hfil, List.getLast?_concat]
      simp [ha]
    · have hfil : List.filter (fun p => a ∈ p.2) [((c, as) : String × List String)] = [] := by
        simp [ha]
      rw [hfil, List.append_nil]
      simp [ha, ih]

/-- An alias table with one alias declared under two canonical fields. -/
def tablaSolapada : List (String × List String) :=
  [("campo1", ["dup"]), ("campo2", ["dup"])]

/-- Claim C8 counterexample: with an alias declared under two canonical
fields, resolution does NOT return the first declared mapping — it returns
the second one. -/
theorem C8_contraejemplo :
    ¬ traducirEncabezado tablaSolapada "dup" = "campo1" := by
  decide

/-- Claim C8 amended: header resolution after trim/lowercase/de-accent
normalization returns the canonical field of the LAST declared mapping whose
alias set contains the normalized header (Python `dict` assignment
overwrites); in the program's own alias table no alias is declared under two
canonical fields, so no header is affected there. -/
theorem C8_ultima_declaracion_gana :
    (∀ (tabla : List (String × List String)) (h : String),
      traducirEncabezado tabla h
        = match ((tabla.filter fun p => normalizarEncabezado h ∈ p.2).getLast?).map Prod.fst with
          | some oficial => oficial
          | none => normalizarEncabezado h)
    ∧ List.Pairwise (fun p q => ∀ x ∈ p.2, ¬ x ∈ q.2) alias_columnas := by
  constructor
  · intro tabla h
    rw [traducirEncabezado, lookup_construirMapeo]
  · decide

